import Mathlib

/-!
Verification of the Game-of-Life grid engine (`core.py`).

The grid is embedded as its shape together with the cell contents
(`matrix[i][j]` for row `i`, column `j`); cells outside the shape are
irrelevant (all statements are up to `Grid.equiv` or guarded by bounds).
Fallible operations (numpy `IndexError`) return `Option`.
-/

structure Grid where
  rows : Nat
  cols : Nat
  cell : Nat → Nat → Bool

/-- `astype(int)` of a boolean cell. -/
def b2i (b : Bool) : Nat := if b then 1 else 0

/-- `int_matrix = self.matrix.astype(int)` viewed at position `(i, j)`. -/
def int_matrix (g : Grid) (i j : Nat) : Nat := b2i (g.cell i j)

/-- The neighbour-count array of `next_gen`: `neigh` is created as zeros and
only its interior slice `neigh[1:-1, 1:-1]` receives the sum of the eight
shifted slices of `int_matrix`. -/
def neigh (g : Grid) (i j : Nat) : Nat :=
  if 1 ≤ i ∧ i + 1 < g.rows ∧ 1 ≤ j ∧ j + 1 < g.cols then
    int_matrix g (i-1) (j-1) + int_matrix g (i-1) j + int_matrix g (i-1) (j+1) +
    int_matrix g i (j-1) + int_matrix g i (j+1) +
    int_matrix g (i+1) (j-1) + int_matrix g (i+1) j + int_matrix g (i+1) (j+1)
  else 0

/-- The generation rule of `next_gen` (lines 90-100):
`matrix = logical_or(neigh == 3, logical_and(int_matrix == 1, neigh == 2))`. -/
def life_step (g : Grid) : Grid :=
  ⟨g.rows, g.cols, fun i j =>
    (neigh g i j == 3) || ((int_matrix g i j == 1) && (neigh g i j == 2))⟩

/-- `any(self.matrix[r, i] for i in range(cols))` (row `r` has a live cell). -/
def rowHasLive (g : Grid) (r : Nat) : Bool :=
  (List.range g.cols).any fun j => g.cell r j

/-- `any(self.matrix[j, c] for j in range(rows))` (column `c` has a live cell). -/
def colHasLive (g : Grid) (c : Nat) : Bool :=
  (List.range g.rows).any fun i => g.cell i c

/-- `np.insert(self.matrix, 0, 0, axis = 0)`: a dead row is inserted on top. -/
def insertTopRow (g : Grid) : Grid :=
  ⟨g.rows + 1, g.cols, fun i j => if i = 0 then false else g.cell (i-1) j⟩

/-- `np.append(self.matrix, [[0] * cols], axis = 0)`: a dead row is appended. -/
def appendBottomRow (g : Grid) : Grid :=
  ⟨g.rows + 1, g.cols, fun i j => if i < g.rows then g.cell i j else false⟩

/-- `np.insert(self.matrix, 0, 0, axis = 1)`: a dead column on the left. -/
def insertLeftCol (g : Grid) : Grid :=
  ⟨g.rows, g.cols + 1, fun i j => if j = 0 then false else g.cell i (j-1)⟩

/-- `np.append(self.matrix, [[0]] * rows, axis = 1)`: a dead column on the right. -/
def appendRightCol (g : Grid) : Grid :=
  ⟨g.rows, g.cols + 1, fun i j => if j < g.cols then g.cell i j else false⟩

/-- `if any(self.matrix[1, i] for i in range(cols)): insert dead row on top`. -/
def stage_top (g : Grid) : Grid :=
  if rowHasLive g 1 then insertTopRow g else g

/-- `if any(self.matrix[-2, i] for i in range(cols)): append dead row below`
(numpy index `-2` is `rows - 2`). -/
def stage_bottom (g : Grid) : Grid :=
  if rowHasLive g (g.rows - 2) then appendBottomRow g else g

/-- `if any(self.matrix[j, 1] for j in range(rows)): insert dead column left`. -/
def stage_left (g : Grid) : Grid :=
  if colHasLive g 1 then insertLeftCol g else g

/-- `if any(self.matrix[j, -2] for j in range(rows)): append dead column right`. -/
def stage_right (g : Grid) : Grid :=
  if colHasLive g (g.cols - 2) then appendRightCol g else g

/-- `GameOfLife.__update_grid`.  Each of the four `if any(...)` checks
evaluates `matrix[1, i]`, `matrix[-2, i]`, `matrix[j, 1]`, `matrix[j, -2]`
lazily over a `range`; when the range is non-empty and the fixed index is out
of numpy range for the current grid, the access raises `IndexError`, modelled
as `none`.  The shape is reloaded after every growth, so each later check
runs on the already-grown grid. -/
def update_grid (g : Grid) : Option Grid :=
  if 1 ≤ g.cols ∧ g.rows < 2 then none else
  if 1 ≤ (stage_top g).cols ∧ (stage_top g).rows < 2 then none else
  if 1 ≤ (stage_bottom (stage_top g)).rows ∧ (stage_bottom (stage_top g)).cols < 2 then none else
  if 1 ≤ (stage_left (stage_bottom (stage_top g))).rows ∧
      (stage_left (stage_bottom (stage_top g))).cols < 2 then none else
  some (stage_right (stage_left (stage_bottom (stage_top g))))

/-- `GameOfLife.next_gen(update_grid)`: optionally grow the grid, then apply
the generation rule. -/
def next_gen (g : Grid) (upd : Bool) : Option Grid :=
  (if upd then update_grid g else some g).map life_step

/-- Python / numpy indexing into an axis of length `n`: a non-negative index
must be `< n`; a negative index `i` with `-n ≤ i` wraps to `n + i`; anything
else raises `IndexError` (`none`). -/
def pyIndex (n : Nat) (i : Int) : Option Nat :=
  if 0 ≤ i then
    if i < (n : Int) then some i.toNat else none
  else
    if -(n : Int) ≤ i then some (i + n).toNat else none

/-- `GameOfLife.get_cell`: evaluates `self.matrix[x][y]` inside
`try/except IndexError` and returns the *coordinates* on success, `None`
on failure. -/
def get_cell (g : Grid) (coords : Int × Int) : Option (Int × Int) :=
  match pyIndex g.rows coords.1, pyIndex g.cols coords.2 with
  | some _, some _ => some coords
  | _, _ => none

/-- `GameOfLife.edit_state`: `self.matrix[x][y] = state`, with numpy index
semantics (no bounds guard of its own; an out-of-range index raises). -/
def edit_state (g : Grid) (c : Int × Int) (state : Bool) : Option Grid :=
  match pyIndex g.rows c.1, pyIndex g.cols c.2 with
  | some x, some y =>
      some ⟨g.rows, g.cols, fun i j => if i = x ∧ j = y then state else g.cell i j⟩
  | _, _ => none

/-- Two grids are extensionally equal: same shape and same cells in bounds. -/
def Grid.equiv (g h : Grid) : Prop :=
  g.rows = h.rows ∧ g.cols = h.cols ∧
    ∀ i < g.rows, ∀ j < g.cols, g.cell i j = h.cell i j

instance (g h : Grid) : Decidable (Grid.equiv g h) := by
  unfold Grid.equiv; infer_instance

/-- The zero-padding neighbour access the specification describes: a position
outside the current bounds counts as dead. -/
def cellAtPadded (g : Grid) (i j : Int) : Bool :=
  if 0 ≤ i ∧ i < (g.rows : Int) ∧ 0 ≤ j ∧ j < (g.cols : Int) then
    g.cell i.toNat j.toNat
  else false

/-- The live-neighbour count the specification describes: the number of live
cells among the 8 adjacent positions, zero-padded at the boundary. -/
def liveNeighbors (g : Grid) (i j : Nat) : Nat :=
  b2i (cellAtPadded g ((i:Int)-1) ((j:Int)-1)) +
  b2i (cellAtPadded g ((i:Int)-1) (j:Int)) +
  b2i (cellAtPadded g ((i:Int)-1) ((j:Int)+1)) +
  b2i (cellAtPadded g (i:Int) ((j:Int)-1)) +
  b2i (cellAtPadded g (i:Int) ((j:Int)+1)) +
  b2i (cellAtPadded g ((i:Int)+1) ((j:Int)-1)) +
  b2i (cellAtPadded g ((i:Int)+1) (j:Int)) +
  b2i (cellAtPadded g ((i:Int)+1) ((j:Int)+1))

/-- The 2×2 all-live block, used as a concrete boundary example. -/
def block2x2 : Grid := ⟨2, 2, fun _ _ => true⟩

/-- A 1×1 dead grid and a 1×1 live grid, used as concrete examples. -/
def onecellDead : Grid := ⟨1, 1, fun _ _ => false⟩

def onecellLive : Grid := ⟨1, 1, fun _ _ => true⟩

def dead2x2 : Grid := ⟨2, 2, fun _ _ => false⟩

/-- A 3×1 grid (one column) with a live cell in its second row. -/
def thinGrid : Grid := ⟨3, 1, fun i _ => i == 1⟩

/-- A 3×4 grid with a single live cell at `(1, 1)`. -/
def gW : Grid := ⟨3, 4, fun i j => i == 1 && j == 1⟩

/-- `G` is `g` grown by `t` dead rows on top, `b` dead rows at the bottom,
`l` dead columns on the left and `r` dead columns on the right: the original
content sits shifted by `(t, l)` and every added cell is dead. -/
def GrownBy (g G : Grid) (t b l r : Nat) : Prop :=
  G.rows = g.rows + t + b ∧ G.cols = g.cols + l + r ∧
  ∀ i j, i < G.rows → j < G.cols →
    G.cell i j =
      if t ≤ i ∧ i < g.rows + t ∧ l ≤ j ∧ j < g.cols + l then
        g.cell (i - t) (j - l)
      else false

/-- A horizontal blinker: live cells at `(r, c-1)`, `(r, c)`, `(r, c+1)`. -/
def hBlinker (rows cols r c : Nat) : Grid :=
  ⟨rows, cols, fun i j => decide (i = r ∧ (j + 1 = c ∨ j = c ∨ j = c + 1))⟩

/-- A vertical blinker: live cells at `(r-1, c)`, `(r, c)`, `(r+1, c)`. -/
def vBlinker (rows cols r c : Nat) : Grid :=
  ⟨rows, cols, fun i j => decide (j = c ∧ (i + 1 = r ∨ i = r ∨ i = r + 1))⟩

/-- The transposed grid (rows and columns exchanged). -/
def transpose (g : Grid) : Grid := ⟨g.cols, g.rows, fun i j => g.cell j i⟩

/-- Python `str` of a list of naturals, item part: items joined by `", "`. -/
def pyReprItems : List Nat → String
  | [] => ""
  | [x] => Nat.repr x
  | x :: xs => Nat.repr x ++ ", " ++ pyReprItems xs

/-- Python `str(list(...))`: `"[" + ", ".joined items + "]"`. -/
def pyReprList (xs : List Nat) : String :=
  "[" ++ pyReprItems xs ++ "]"

/-- Row `i` of `self.matrix.astype(int)` as a list, one element per column. -/
def matrixRow (g : Grid) (i : Nat) : List Nat :=
  (List.range g.cols).map fun j => b2i (g.cell i j)

/-- `GameOfLife.new_conf`: one line per row, each line
`str(list(self.matrix.astype(int)[i])) + '\n'`. -/
def new_conf (g : Grid) : List String :=
  (List.range g.rows).map fun i => pyReprList (matrixRow g i) ++ "\n"

def isWsChar (c : Char) : Bool :=
  c = ' ' || c = '\n' || c = '\t' || c = '\r'

/-- Skip JSON insignificant whitespace. -/
def skipWs : List Char → List Char
  | [] => []
  | c :: cs => if isWsChar c then skipWs cs else c :: cs

/-- Consume a maximal run of decimal digits, accumulating their value. -/
def readNat : List Char → Nat → Nat × List Char
  | [], acc => (acc, [])
  | c :: cs, acc =>
    if c.isDigit then readNat cs (acc * 10 + (c.toNat - 48)) else (acc, c :: cs)

/-- Parse the comma-separated elements of a JSON array of (non-negative)
integers, positioned after the opening bracket on a non-`]` character;
`fuel` bounds the recursion. -/
def parseItems : Nat → List Char → Option (List Nat)
  | 0, _ => none
  | fuel + 1, cs =>
    match cs with
    | [] => none
    | c :: _ =>
      if c.isDigit then
        let p := readNat cs 0
        match skipWs p.2 with
        | ',' :: rest => (parseItems fuel (skipWs rest)).map fun ns => p.1 :: ns
        | ']' :: rest => if skipWs rest = [] then some [p.1] else none
        | _ => none
      else none

/-- `json.loads` restricted to what a configuration line holds: a single
JSON array of non-negative integers, surrounded by whitespace. -/
def json_loads_intlist (s : String) : Option (List Nat) :=
  match skipWs s.data with
  | '[' :: rest =>
    let cs := skipWs rest
    if cs.head? = some (']') then
      if skipWs cs.tail = [] then some [] else none
    else parseItems (cs.length + 1) cs
  | _ => none

/-- `GameOfLife.load_conf` without a custom alphabet:
`conf = [json.loads(line) for line in f.readlines()]` (the subsequent
`np.asarray(conf)` keeps exactly these rows as the new matrix). -/
def load_conf : List String → Option (List (List Nat))
  | [] => some []
  | line :: rest =>
    match json_loads_intlist line, load_conf rest with
    | some row, some conf => some (row :: conf)
    | _, _ => none

lemma pyIndex_isSome (n : Nat) (i : Int) :
    (pyIndex n i).isSome ↔ (-(n : Int) ≤ i ∧ i < n) := by
  unfold pyIndex
  split_ifs <;> simp <;> omega

lemma pyIndex_eq_none (n : Nat) (i : Int) :
    pyIndex n i = none ↔ ¬(-(n : Int) ≤ i ∧ i < n) := by
  rw [← pyIndex_isSome]
  cases pyIndex n i <;> simp

lemma pyIndex_coe (n x : Nat) (h : x < n) : pyIndex n (x : Int) = some x := by
  unfold pyIndex
  rw [if_pos (by omega : (0:Int) ≤ (x:Int)), if_pos (by omega : (x:Int) < (n:Int))]
  simp

lemma bool_eq_of_iff {a b : Bool} (h : a = true ↔ b = true) : a = b := by
  cases a <;> cases b <;> simp_all

lemma b2i_beq_one (b : Bool) : (b2i b == 1) = b := by cases b <;> rfl

lemma cellAtPadded_coe (g : Grid) (a b : Nat) (ha : a < g.rows) (hb : b < g.cols) :
    cellAtPadded g (a : Int) (b : Int) = g.cell a b := by
  unfold cellAtPadded
  rw [if_pos (by omega)]
  simp

lemma neigh_zero_of_not_interior (g : Grid) (i j : Nat)
    (h : ¬(1 ≤ i ∧ i + 1 < g.rows ∧ 1 ≤ j ∧ j + 1 < g.cols)) :
    neigh g i j = 0 := by
  unfold neigh
  rw [if_neg h]

lemma rowHasLive_eq_true (g : Grid) (x : Nat) :
    rowHasLive g x = true ↔ ∃ j, j < g.cols ∧ g.cell x j = true := by
  unfold rowHasLive
  simp [List.any_eq_true, List.mem_range]

lemma colHasLive_eq_true (g : Grid) (x : Nat) :
    colHasLive g x = true ↔ ∃ i, i < g.rows ∧ g.cell i x = true := by
  unfold colHasLive
  simp [List.any_eq_true, List.mem_range]

lemma grownBy_refl (g : Grid) : GrownBy g g 0 0 0 0 := by
  refine ⟨rfl, rfl, fun i j hi hj => ?_⟩
  rw [if_pos (by omega)]
  rfl

lemma grownBy_insertTop (g : Grid) : GrownBy g (insertTopRow g) 1 0 0 0 := by
  refine ⟨rfl, rfl, fun i j hi hj => ?_⟩
  simp only [insertTopRow] at hi hj ⊢
  by_cases h0 : i = 0
  · rw [if_pos h0, if_neg (by omega)]
  · rw [if_neg h0, if_pos ⟨by omega, by omega, by omega, by omega⟩]
    rfl

lemma grownBy_appendBottom {g G : Grid} {t : Nat} (h : GrownBy g G t 0 0 0) :
    GrownBy g (appendBottomRow G) t 1 0 0 := by
  obtain ⟨hrows, hcols, hcell⟩ := h
  refine ⟨by simp only [appendBottomRow]; omega,
          by simp only [appendBottomRow]; omega, fun i j hi hj => ?_⟩
  simp only [appendBottomRow] at hi hj ⊢
  by_cases hib : i < G.rows
  · rw [if_pos hib, hcell i j hib hj]
  · rw [if_neg hib, if_neg (by omega)]

lemma grownBy_insertLeft {g G : Grid} {t b : Nat} (h : GrownBy g G t b 0 0) :
    GrownBy g (insertLeftCol G) t b 1 0 := by
  obtain ⟨hrows, hcols, hcell⟩ := h
  refine ⟨by simp only [insertLeftCol]; omega,
          by simp only [insertLeftCol]; omega, fun i j hi hj => ?_⟩
  simp only [insertLeftCol] at hi hj ⊢
  by_cases hj0 : j = 0
  · rw [if_pos hj0, if_neg (by omega)]
  · rw [if_neg hj0, hcell i (j-1) hi (by omega)]
    exact if_congr (by omega) rfl rfl

lemma grownBy_appendRight {g G : Grid} {t b l : Nat} (h : GrownBy g G t b l 0) :
    GrownBy g (appendRightCol G) t b l 1 := by
  obtain ⟨hrows, hcols, hcell⟩ := h
  refine ⟨by simp only [appendRightCol]; omega,
          by simp only [appendRightCol]; omega, fun i j hi hj => ?_⟩
  simp only [appendRightCol] at hi hj ⊢
  by_cases hjb : j < G.cols
  · rw [if_pos hjb, hcell i j hi hjb]
  · rw [if_neg hjb, if_neg (by omega)]

lemma rowHasLive_last_of_grownBy {g G : Grid} {t : Nat}
    (h : GrownBy g G t 0 0 0) (hr : 2 ≤ g.rows) :
    rowHasLive G (G.rows - 2) = rowHasLive g (g.rows - 2) := by
  obtain ⟨hrows, hcols, hcell⟩ := h
  apply bool_eq_of_iff
  rw [rowHasLive_eq_true, rowHasLive_eq_true]
  constructor
  · rintro ⟨j, hj, hc⟩
    rw [hcell _ j (by omega) (by omega), if_pos (by omega)] at hc
    rw [show G.rows - 2 - t = g.rows - 2 by omega] at hc
    exact ⟨j, by omega, hc⟩
  · rintro ⟨j, hj, hc⟩
    refine ⟨j, by omega, ?_⟩
    rw [hcell _ j (by omega) (by omega), if_pos (by omega),
        show G.rows - 2 - t = g.rows - 2 by omega]
    exact hc

lemma colHasLive_one_of_grownBy {g G : Grid} {t b : Nat}
    (h : GrownBy g G t b 0 0) (hc2 : 2 ≤ g.cols) :
    colHasLive G 1 = colHasLive g 1 := by
  obtain ⟨hrows, hcols, hcell⟩ := h
  apply bool_eq_of_iff
  rw [colHasLive_eq_true, colHasLive_eq_true]
  constructor
  · rintro ⟨i, hi, hc⟩
    rw [hcell i 1 hi (by omega)] at hc
    by_cases hcond : t ≤ i ∧ i < g.rows + t ∧ 0 ≤ 1 ∧ 1 < g.cols + 0
    · rw [if_pos hcond] at hc
      exact ⟨i - t, by omega, hc⟩
    · rw [if_neg hcond] at hc
      exact absurd hc (by simp)
  · rintro ⟨i, hi, hc⟩
    refine ⟨i + t, by omega, ?_⟩
    rw [hcell (i + t) 1 (by omega) (by omega), if_pos (by omega),
        show i + t - t = i by omega]
    exact hc

lemma colHasLive_last_of_grownBy {g G : Grid} {t b l : Nat}
    (h : GrownBy g G t b l 0) (hc2 : 2 ≤ g.cols) :
    colHasLive G (G.cols - 2) = colHasLive g (g.cols - 2) := by
  obtain ⟨hrows, hcols, hcell⟩ := h
  apply bool_eq_of_iff
  rw [colHasLive_eq_true, colHasLive_eq_true]
  constructor
  · rintro ⟨i, hi, hc⟩
    rw [hcell i _ hi (by omega)] at hc
    by_cases hcond : t ≤ i ∧ i < g.rows + t ∧ l ≤ G.cols - 2 ∧ G.cols - 2 < g.cols + l
    · rw [if_pos hcond] at hc
      rw [show G.cols - 2 - l = g.cols - 2 by omega] at hc
      exact ⟨i - t, by omega, hc⟩
    · rw [if_neg hcond] at hc
      exact absurd hc (by simp)
  · rintro ⟨i, hi, hc⟩
    refine ⟨i + t, by omega, ?_⟩
    rw [hcell (i + t) _ (by omega) (by omega), if_pos (by omega),
        show i + t - t = i by omega, show G.cols - 2 - l = g.cols - 2 by omega]
    exact hc

lemma grownBy_stage_top (g : Grid) :
    GrownBy g (stage_top g) (b2i (rowHasLive g 1)) 0 0 0 := by
  unfold stage_top
  by_cases ht : rowHasLive g 1 = true
  · rw [if_pos ht, ht]
    exact grownBy_insertTop g
  · have ht' : rowHasLive g 1 = false := by simpa using ht
    rw [if_neg ht, ht']
    exact grownBy_refl g

lemma grownBy_stage_bottom {g G : Grid} {t : Nat}
    (h : GrownBy g G t 0 0 0) (hr : 2 ≤ g.rows) :
    GrownBy g (stage_bottom G) t (b2i (rowHasLive g (g.rows - 2))) 0 0 := by
  unfold stage_bottom
  rw [rowHasLive_last_of_grownBy h hr]
  by_cases hb : rowHasLive g (g.rows - 2) = true
  · rw [if_pos hb, hb]
    exact grownBy_appendBottom h
  · have hb' : rowHasLive g (g.rows - 2) = false := by simpa using hb
    rw [if_neg hb, hb']
    exact h

lemma grownBy_stage_left {g G : Grid} {t b : Nat}
    (h : GrownBy g G t b 0 0) (hc2 : 2 ≤ g.cols) :
    GrownBy g (stage_left G) t b (b2i (colHasLive g 1)) 0 := by
  unfold stage_left
  rw [colHasLive_one_of_grownBy h hc2]
  by_cases hl : colHasLive g 1 = true
  · rw [if_pos hl, hl]
    exact grownBy_insertLeft h
  · have hl' : colHasLive g 1 = false := by simpa using hl
    rw [if_neg hl, hl']
    exact h

lemma grownBy_stage_right {g G : Grid} {t b l : Nat}
    (h : GrownBy g G t b l 0) (hc2 : 2 ≤ g.cols) :
    GrownBy g (stage_right G) t b l (b2i (colHasLive g (g.cols - 2))) := by
  unfold stage_right
  rw [colHasLive_last_of_grownBy h hc2]
  by_cases hx : colHasLive g (g.cols - 2) = true
  · rw [if_pos hx, hx]
    exact grownBy_appendRight h
  · have hx' : colHasLive g (g.cols - 2) = false := by simpa using hx
    rw [if_neg hx, hx']
    exact h

/-- On a grid with at least 2 rows and 2 columns, `__update_grid` succeeds
and produces exactly the original grid padded by one dead line per triggered
side, the triggers being evaluated on the original content. -/
lemma update_grid_spec (g : Grid) (hr : 2 ≤ g.rows) (hc : 2 ≤ g.cols) :
    update_grid g = some (stage_right (stage_left (stage_bottom (stage_top g)))) ∧
    GrownBy g (stage_right (stage_left (stage_bottom (stage_top g))))
      (b2i (rowHasLive g 1)) (b2i (rowHasLive g (g.rows - 2)))
      (b2i (colHasLive g 1)) (b2i (colHasLive g (g.cols - 2))) := by
  have h1 := grownBy_stage_top g
  have h2 := grownBy_stage_bottom h1 hr
  have h3 := grownBy_stage_left h2 hc
  have h4 := grownBy_stage_right h3 hc
  refine ⟨?_, h4⟩
  have e1 := h1.1
  have e1c := h1.2.1
  have e2 := h2.1
  have e2c := h2.2.1
  have e3 := h3.1
  have e3c := h3.2.1
  unfold update_grid
  rw [if_neg (by omega), if_neg (by omega), if_neg (by omega), if_neg (by omega)]

/-- C5 (amended).  On a grid with at least 2 rows and 2 columns, the step
with dynamic growth first grows the grid: each of the four sides is checked
independently on the line one position inward from that edge, a triggered
side adds exactly one all-dead row/column on that side, the prior content is
preserved at coordinates shifted by the added top row / left column, growth
never removes rows or columns, and the generation rule applied afterwards
keeps the grown dimensions. -/
theorem C5_dynamic_growth (g : Grid) (hr : 2 ≤ g.rows) (hc : 2 ≤ g.cols) :
    ∃ G, update_grid g = some G ∧
      next_gen g true = some (life_step G) ∧
      (life_step G).rows = G.rows ∧ (life_step G).cols = G.cols ∧
      G.rows = g.rows + b2i (rowHasLive g 1) + b2i (rowHasLive g (g.rows - 2)) ∧
      G.cols = g.cols + b2i (colHasLive g 1) + b2i (colHasLive g (g.cols - 2)) ∧
      g.rows ≤ G.rows ∧ g.cols ≤ G.cols ∧
      ∀ i j, i < G.rows → j < G.cols →
        G.cell i j =
          if b2i (rowHasLive g 1) ≤ i ∧ i < g.rows + b2i (rowHasLive g 1) ∧
             b2i (colHasLive g 1) ≤ j ∧ j < g.cols + b2i (colHasLive g 1) then
            g.cell (i - b2i (rowHasLive g 1)) (j - b2i (colHasLive g 1))
          else false := by
  obtain ⟨hupd, hrows, hcols, hcell⟩ := update_grid_spec g hr hc
  refine ⟨_, hupd, ?_, rfl, rfl, hrows, hcols, by omega, by omega, hcell⟩
  show (update_grid g).map life_step = _
  rw [hupd]
  rfl

theorem C5_witness :
    2 ≤ gW.rows ∧ 2 ≤ gW.cols ∧
    ∃ G, update_grid gW = some G ∧
      next_gen gW true = some (life_step G) ∧
      (life_step G).rows = G.rows ∧ (life_step G).cols = G.cols ∧
      G.rows = gW.rows + b2i (rowHasLive gW 1) + b2i (rowHasLive gW (gW.rows - 2)) ∧
      G.cols = gW.cols + b2i (colHasLive gW 1) + b2i (colHasLive gW (gW.cols - 2)) ∧
      gW.rows ≤ G.rows ∧ gW.cols ≤ G.cols ∧
      ∀ i j, i < G.rows → j < G.cols →
        G.cell i j =
          if b2i (rowHasLive gW 1) ≤ i ∧ i < gW.rows + b2i (rowHasLive gW 1) ∧
             b2i (colHasLive gW 1) ≤ j ∧ j < gW.cols + b2i (colHasLive gW 1) then
            gW.cell (i - b2i (rowHasLive gW 1)) (j - b2i (colHasLive gW 1))
          else false :=
  ⟨by decide, by decide, C5_dynamic_growth gW (by decide) (by decide)⟩

/-- C5 (counterexample).  On the 3×1 grid whose second row holds a live cell,
the claim promises that the step grows the row count by 1 — but
`__update_grid` evaluates `matrix[j, 1]` on a single-column grid and raises
`IndexError`: the step fails and produces no grid at all. -/
theorem C5_counterexample :
    thinGrid.cell 1 0 = true ∧
    update_grid thinGrid = none ∧
    next_gen thinGrid true = none :=
  ⟨by decide, by rfl, by rfl⟩

/-- C6 (amended).  For grids with at least one row and one column,
`__update_grid` succeeds exactly when the grid has at least 2 rows and 2
columns; with exactly one row or exactly one column it raises `IndexError`
(`matrix[1, i]`, `matrix[-2, i]` or `matrix[j, 1]` is out of range). -/
theorem C6_update_grid_totality (g : Grid) (h1 : 1 ≤ g.rows) (h1c : 1 ≤ g.cols) :
    (update_grid g).isSome = true ↔ (2 ≤ g.rows ∧ 2 ≤ g.cols) := by
  constructor
  · intro hs
    by_contra hnot
    rcases Nat.lt_or_ge g.rows 2 with hr | hr
    · have hnone : update_grid g = none := by
        unfold update_grid
        rw [if_pos ⟨h1c, hr⟩]
      rw [hnone] at hs
      simp at hs
    · have hcl : g.cols < 2 := by omega
      have h1g := grownBy_stage_top g
      have h2g := grownBy_stage_bottom h1g hr
      have e1 := h1g.1
      have e1c := h1g.2.1
      have e2 := h2g.1
      have e2c := h2g.2.1
      have hnone : update_grid g = none := by
        unfold update_grid
        rw [if_neg (by omega), if_neg (by omega), if_pos (by omega)]
      rw [hnone] at hs
      simp at hs
  · rintro ⟨hr, hc⟩
    rw [(update_grid_spec g hr hc).1]
    rfl

theorem C6_witness :
    1 ≤ dead2x2.rows ∧ 1 ≤ dead2x2.cols ∧
    ((update_grid dead2x2).isSome = true ↔ (2 ≤ dead2x2.rows ∧ 2 ≤ dead2x2.cols)) :=
  ⟨by decide, by decide, C6_update_grid_totality dead2x2 (by decide) (by decide)⟩

/-- C6 (counterexample).  The all-dead 1×1 grid has `rows ≥ 1` and
`cols ≥ 1`, yet `__update_grid` fails on it (the access `matrix[1, 0]`
raises `IndexError`), contradicting "never fails ... including grids with
exactly one row or one column". -/
theorem C6_counterexample :
    1 ≤ onecellDead.rows ∧ 1 ≤ onecellDead.cols ∧
    update_grid onecellDead = none :=
  ⟨by decide, by decide, by rfl⟩

lemma neigh_transpose (g : Grid) (i j : Nat) :
    neigh (transpose g) i j = neigh g j i := by
  simp only [neigh, transpose, int_matrix]
  by_cases h : 1 ≤ i ∧ i + 1 < g.cols ∧ 1 ≤ j ∧ j + 1 < g.rows
  · rw [if_pos h, if_pos ⟨h.2.2.1, h.2.2.2, h.1, h.2.1⟩]
    omega
  · rw [if_neg h, if_neg (by tauto)]

lemma life_step_transpose (g : Grid) (i j : Nat) :
    (life_step (transpose g)).cell i j = (life_step g).cell j i := by
  show ((neigh (transpose g) i j == 3) ||
      ((int_matrix (transpose g) i j == 1) && (neigh (transpose g) i j == 2))) = _
  rw [neigh_transpose]
  rfl

lemma neigh_congr {g h : Grid} (hrows : g.rows = h.rows) (hcols : g.cols = h.cols)
    (hcell : ∀ i < g.rows, ∀ j < g.cols, g.cell i j = h.cell i j) (i j : Nat) :
    neigh g i j = neigh h i j := by
  unfold neigh
  rw [← hrows, ← hcols]
  by_cases hin : 1 ≤ i ∧ i + 1 < g.rows ∧ 1 ≤ j ∧ j + 1 < g.cols
  · rw [if_pos hin, if_pos hin]
    unfold int_matrix
    rw [hcell (i-1) (by omega) (j-1) (by omega), hcell (i-1) (by omega) j (by omega),
        hcell (i-1) (by omega) (j+1) (by omega), hcell i (by omega) (j-1) (by omega),
        hcell i (by omega) (j+1) (by omega), hcell (i+1) (by omega) (j-1) (by omega),
        hcell (i+1) (by omega) j (by omega), hcell (i+1) (by omega) (j+1) (by omega)]
  · rw [if_neg hin, if_neg hin]

lemma life_step_congr {g h : Grid} (hrows : g.rows = h.rows) (hcols : g.cols = h.cols)
    (hcell : ∀ i < g.rows, ∀ j < g.cols, g.cell i j = h.cell i j) (i j : Nat) :
    (life_step g).cell i j = (life_step h).cell i j := by
  by_cases hin : 1 ≤ i ∧ i + 1 < g.rows ∧ 1 ≤ j ∧ j + 1 < g.cols
  · show ((neigh g i j == 3) || ((int_matrix g i j == 1) && (neigh g i j == 2))) = _
    rw [neigh_congr hrows hcols hcell i j,
        show int_matrix g i j = int_matrix h i j from by
          unfold int_matrix
          rw [hcell i (by omega) j (by omega)]]
    rfl
  · have e1 : neigh g i j = 0 := neigh_zero_of_not_interior g i j hin
    have e2 : neigh h i j = 0 := neigh_zero_of_not_interior h i j (by
      rw [← hrows, ← hcols]
      exact hin)
    show ((neigh g i j == 3) || ((int_matrix g i j == 1) && (neigh g i j == 2))) =
        ((neigh h i j == 3) || ((int_matrix h i j == 1) && (neigh h i j == 2)))
    rw [e1, e2]
    simp

set_option maxHeartbeats 1600000 in
/-- One generation maps the horizontal blinker to the vertical blinker,
pointwise everywhere, provided the blinker is at least two cells away from
every edge. -/
lemma life_step_hBlinker (rows cols r c : Nat)
    (hr1 : 2 ≤ r) (hr2 : r + 3 ≤ rows) (hc1 : 2 ≤ c) (hc2 : c + 3 ≤ cols) (i j : Nat) :
    (life_step (hBlinker rows cols r c)).cell i j = (vBlinker rows cols r c).cell i j := by
  by_cases hin : 1 ≤ i ∧ i + 1 < rows ∧ 1 ≤ j ∧ j + 1 < cols
  · obtain ⟨h1, h2, h3, h4⟩ := hin
    have hn : neigh (hBlinker rows cols r c) i j =
        int_matrix (hBlinker rows cols r c) (i-1) (j-1) +
        int_matrix (hBlinker rows cols r c) (i-1) j +
        int_matrix (hBlinker rows cols r c) (i-1) (j+1) +
        int_matrix (hBlinker rows cols r c) i (j-1) +
        int_matrix (hBlinker rows cols r c) i (j+1) +
        int_matrix (hBlinker rows cols r c) (i+1) (j-1) +
        int_matrix (hBlinker rows cols r c) (i+1) j +
        int_matrix (hBlinker rows cols r c) (i+1) (j+1) := by
      unfold neigh
      exact if_pos ⟨h1, h2, h3, h4⟩
    show ((neigh (hBlinker rows cols r c) i j == 3) ||
        ((int_matrix (hBlinker rows cols r c) i j == 1) &&
          (neigh (hBlinker rows cols r c) i j == 2))) = _
    rw [hn]
    apply bool_eq_of_iff
    simp only [int_matrix, hBlinker, vBlinker, b2i, Bool.or_eq_true, Bool.and_eq_true,
      beq_iff_eq, decide_eq_true_eq]
    split_ifs <;>
      simp only [false_and, true_and, and_false, and_true, or_false, false_or,
        true_or, or_true, true_iff, iff_true, false_iff, iff_false] <;>
      omega
  · have e0 : neigh (hBlinker rows cols r c) i j = 0 :=
      neigh_zero_of_not_interior _ i j hin
    have ev : (vBlinker rows cols r c).cell i j = false := by
      simp only [vBlinker]
      rw [decide_eq_false]
      omega
    show ((neigh (hBlinker rows cols r c) i j == 3) ||
        ((int_matrix (hBlinker rows cols r c) i j == 1) &&
          (neigh (hBlinker rows cols r c) i j == 2))) = _
    rw [e0, ev]
    simp

/-- C7.  A horizontal blinker placed away from the border becomes the
vertical blinker after one step, and is restored (with all other cells dead)
after two steps: period 2. -/
theorem C7_blinker_period_two (rows cols r c : Nat)
    (hr1 : 2 ≤ r) (hr2 : r + 3 ≤ rows) (hc1 : 2 ≤ c) (hc2 : c + 3 ≤ cols) :
    Grid.equiv (life_step (hBlinker rows cols r c)) (vBlinker rows cols r c) ∧
    Grid.equiv (life_step (life_step (hBlinker rows cols r c)))
      (hBlinker rows cols r c) := by
  have key := life_step_hBlinker rows cols r c hr1 hr2 hc1 hc2
  refine ⟨⟨rfl, rfl, fun i _ j _ => key i j⟩, ⟨rfl, rfl, fun i _ j _ => ?_⟩⟩
  rw [@life_step_congr (life_step (hBlinker rows cols r c)) (vBlinker rows cols r c)
        rfl rfl (fun a _ b _ => key a b) i j,
      show vBlinker rows cols r c = transpose (hBlinker cols rows c r) from rfl,
      life_step_transpose, life_step_hBlinker cols rows c r hc1 hc2 hr1 hr2 j i]
  rfl

theorem C7_witness :
    2 ≤ 3 ∧ 3 + 3 ≤ 7 ∧
    (Grid.equiv (life_step (hBlinker 7 7 3 3)) (vBlinker 7 7 3 3) ∧
      Grid.equiv (life_step (life_step (hBlinker 7 7 3 3))) (hBlinker 7 7 3 3)) :=
  ⟨by decide, by decide,
    C7_blinker_period_two 7 7 3 3 (by decide) (by decide) (by decide) (by decide)⟩

/-- C10.  A generation step with growth disabled (`next_gen` with
`update_grid = False`) leaves the grid dimensions unchanged; only the cell
states change. -/
theorem C10_step_no_growth_preserves_dims (g : Grid) :
    next_gen g false = some (life_step g) ∧
    (life_step g).rows = g.rows ∧ (life_step g).cols = g.cols :=
  ⟨rfl, rfl, rfl⟩

/-- C9.  After one generation step (without grid growth), every cell on the
outermost ring of the grid (row 0, last row, column 0, last column) is dead,
whatever the pre-step states were: the vectorized update writes the neighbour
sums only into the interior slice, so the ring keeps neighbour count 0. -/
theorem C9_border_ring_dead_after_step (g : Grid) (i j : Nat)
    (hi : i < g.rows) (hj : j < g.cols)
    (hring : i = 0 ∨ i + 1 = g.rows ∨ j = 0 ∨ j + 1 = g.cols) :
    (life_step g).cell i j = false := by
  have hn : neigh g i j = 0 := by
    unfold neigh
    rw [if_neg]
    omega
  simp [life_step, hn]

theorem C9_witness :
    (life_step ⟨3, 3, fun _ _ => true⟩).cell 0 0 = false :=
  C9_border_ring_dead_after_step ⟨3, 3, fun _ _ => true⟩ 0 0 (by decide) (by decide)
    (Or.inl rfl)

/-- C4.  For a coordinate within bounds and any boolean `b`, `edit_state`
succeeds, the edited cell reads back `b`, every other cell is unchanged, and
the dimensions are unchanged. -/
theorem C4_edit_state_in_bounds (g : Grid) (x y : Nat) (b : Bool)
    (hx : x < g.rows) (hy : y < g.cols) :
    ∃ g2, edit_state g ((x : Int), (y : Int)) b = some g2 ∧
      g2.rows = g.rows ∧ g2.cols = g.cols ∧
      g2.cell x y = b ∧
      ∀ i j, ¬(i = x ∧ j = y) → g2.cell i j = g.cell i j := by
  refine ⟨⟨g.rows, g.cols, fun i j => if i = x ∧ j = y then b else g.cell i j⟩,
    ?_, rfl, rfl, by simp, fun i j hij => by simp [hij]⟩
  unfold edit_state
  rw [pyIndex_coe g.rows x hx, pyIndex_coe g.cols y hy]

theorem C4_witness :
    ∃ g2, edit_state dead2x2 ((1 : Int), (0 : Int)) true = some g2 ∧
      g2.rows = dead2x2.rows ∧ g2.cols = dead2x2.cols ∧
      g2.cell 1 0 = true ∧
      ∀ i j, ¬(i = 1 ∧ j = 0) → g2.cell i j = dead2x2.cell i j :=
  C4_edit_state_in_bounds dead2x2 1 0 true (by decide) (by decide)

/-- C2 (amended).  `get_cell` returns the coordinate pair itself (not the
cell's liveness) exactly when the numpy access succeeds, i.e. when
`-rows ≤ row < rows` and `-cols ≤ col < cols` (negative in-range coordinates
wrap instead of being reported); otherwise it returns `None`. -/
theorem C2_get_cell_characterization (g : Grid) (x y : Int) :
    get_cell g (x, y) =
      if -(g.rows : Int) ≤ x ∧ x < g.rows ∧ -(g.cols : Int) ≤ y ∧ y < g.cols
      then some (x, y) else none := by
  unfold get_cell
  rcases hx : pyIndex g.rows x with _ | x0
  · have hxn := (pyIndex_eq_none g.rows x).mp hx
    rw [if_neg (by tauto)]
  · have hxr : -(g.rows : Int) ≤ x ∧ x < g.rows := by
      have h := (pyIndex_isSome g.rows x).mp (by rw [hx]; rfl)
      exact h
    rcases hy : pyIndex g.cols y with _ | y0
    · have hyn := (pyIndex_eq_none g.cols y).mp hy
      rw [if_neg (by tauto)]
    · have hyr : -(g.cols : Int) ≤ y ∧ y < g.cols := by
        have h := (pyIndex_isSome g.cols y).mp (by rw [hy]; rfl)
        exact h
      rw [if_pos ⟨hxr.1, hxr.2, hyr.1, hyr.2⟩]

/-- C2 (counterexample).  On a 1×1 grid, `get_cell (0,0)` yields the same
value `some (0, 0)` whether the cell is dead or alive, so it does not return
the cell's liveness; and at the out-of-bounds coordinate `(-1, 0)` of a 1×1
live grid it returns a value (`some (-1, 0)`) instead of reporting an error. -/
theorem C2_counterexample :
    get_cell onecellDead (0, 0) = some (0, 0) ∧
    get_cell onecellLive (0, 0) = some (0, 0) ∧
    onecellDead.cell 0 0 ≠ onecellLive.cell 0 0 ∧
    get_cell onecellLive (-1, 0) = some (-1, 0) := by
  refine ⟨rfl, rfl, by decide, rfl⟩

/-- C3 (amended).  `edit_state` fails (numpy raises `IndexError`, leaving the
grid unmodified) exactly for coordinates outside the *extended* numpy range:
`row < -rows`, `row ≥ rows`, `col < -cols` or `col ≥ cols`.  Negative
coordinates within `[-rows, 0)` / `[-cols, 0)` are not rejected: they wrap
around and modify a cell. -/
theorem C3_edit_state_out_of_range_fails (g : Grid) (x y : Int) (b : Bool)
    (h : x < -(g.rows : Int) ∨ (g.rows : Int) ≤ x ∨
         y < -(g.cols : Int) ∨ (g.cols : Int) ≤ y) :
    edit_state g (x, y) b = none := by
  unfold edit_state
  rcases hx : pyIndex g.rows x with _ | x0
  · rfl
  · have hxr := (pyIndex_isSome g.rows x).mp (by rw [hx]; rfl)
    have hy : pyIndex g.cols y = none := by
      rw [pyIndex_eq_none]
      omega
    rw [hy]

theorem C3_witness :
    edit_state dead2x2 (2, 0) true = none :=
  C3_edit_state_out_of_range_fails dead2x2 2 0 true (by decide)

/-- For an interior cell every one of the 8 adjacent positions is in bounds,
so the vectorized slice sum agrees with the zero-padded neighbour count of
the specification. -/
lemma neigh_eq_liveNeighbors (g : Grid) (i j : Nat)
    (h : 1 ≤ i ∧ i + 1 < g.rows ∧ 1 ≤ j ∧ j + 1 < g.cols) :
    neigh g i j = liveNeighbors g i j := by
  obtain ⟨h1, h2, h3, h4⟩ := h
  have e1 : ((i:Int) - 1) = ((i - 1 : Nat) : Int) := by omega
  have e2 : ((j:Int) - 1) = ((j - 1 : Nat) : Int) := by omega
  have e3 : ((i:Int) + 1) = ((i + 1 : Nat) : Int) := by omega
  have e4 : ((j:Int) + 1) = ((j + 1 : Nat) : Int) := by omega
  unfold neigh liveNeighbors int_matrix
  rw [if_pos ⟨h1, h2, h3, h4⟩, e1, e2, e3, e4]
  rw [cellAtPadded_coe g (i-1) (j-1) (by omega) (by omega),
      cellAtPadded_coe g (i-1) j (by omega) (by omega),
      cellAtPadded_coe g (i-1) (j+1) (by omega) (by omega),
      cellAtPadded_coe g i (j-1) (by omega) (by omega),
      cellAtPadded_coe g i (j+1) (by omega) (by omega),
      cellAtPadded_coe g (i+1) (j-1) (by omega) (by omega),
      cellAtPadded_coe g (i+1) j (by omega) (by omega),
      cellAtPadded_coe g (i+1) (j+1) (by omega) (by omega)]

/-- C1 (amended).  The next state of a cell is
`(liveNeighbors == 3) OR (current AND liveNeighbors == 2)` — with
`liveNeighbors` the zero-padded count of live cells among the 8 adjacent
positions — for every *interior* cell (`0 < r < rows-1`, `0 < c < cols-1`);
every cell of the outermost ring is instead set unconditionally to dead,
because the vectorized update leaves its neighbour count at zero. -/
theorem C1_next_state_rule (g : Grid) (i j : Nat)
    (hi : i < g.rows) (hj : j < g.cols) :
    (life_step g).cell i j =
      if 1 ≤ i ∧ i + 1 < g.rows ∧ 1 ≤ j ∧ j + 1 < g.cols then
        ((liveNeighbors g i j == 3) ||
          (g.cell i j && (liveNeighbors g i j == 2)))
      else false := by
  by_cases h : 1 ≤ i ∧ i + 1 < g.rows ∧ 1 ≤ j ∧ j + 1 < g.cols
  · rw [if_pos h]
    have hstep : (life_step g).cell i j
        = ((neigh g i j == 3) || ((int_matrix g i j == 1) && (neigh g i j == 2))) := rfl
    rw [hstep, neigh_eq_liveNeighbors g i j h,
        show int_matrix g i j = b2i (g.cell i j) from rfl, b2i_beq_one]
  · rw [if_neg h]
    have hn := neigh_zero_of_not_interior g i j h
    simp [life_step, hn]

theorem C1_witness :
    (life_step ⟨3, 3, fun i _ => i = 1⟩).cell 1 1 =
      if 1 ≤ 1 ∧ 1 + 1 < (3:Nat) ∧ 1 ≤ 1 ∧ 1 + 1 < (3:Nat) then
        ((liveNeighbors ⟨3, 3, fun i _ => i = 1⟩ 1 1 == 3) ||
          ((⟨3, 3, fun i _ => i = 1⟩ : Grid).cell 1 1 &&
            (liveNeighbors ⟨3, 3, fun i _ => i = 1⟩ 1 1 == 2)))
      else false :=
  C1_next_state_rule ⟨3, 3, fun i _ => i = 1⟩ 1 1 (by decide) (by decide)

/-- C1 (counterexample).  On the 2×2 all-live grid the cell `(0, 0)` has
three live neighbours, so the claimed rule (with zero-padding holding on the
border as well) would keep it alive — but the code turns it dead. -/
theorem C1_counterexample :
    (life_step block2x2).cell 0 0 = false ∧
    ((liveNeighbors block2x2 0 0 == 3) ||
      (block2x2.cell 0 0 && (liveNeighbors block2x2 0 0 == 2))) = true := by
  constructor
  · rfl
  · decide

/-- C3 (counterexample).  At the out-of-bounds coordinate `(-1, 0)` of an
all-dead 2×2 grid, `edit_state` does not fail: the index wraps around and the
cell at `(1, 0)` is set, so the grid does not stay unchanged either. -/
theorem C3_counterexample :
    (edit_state dead2x2 (-1, 0) true).isSome = true ∧
    (edit_state dead2x2 (-1, 0) true).map (fun g => g.cell 1 0) = some true := by
  refine ⟨rfl, ?_⟩
  rfl

lemma data_append (s t : String) : (s ++ t).data = s.data ++ t.data := rfl

lemma wsComma : isWsChar (',') = false := by decide

lemma wsSpace : isWsChar (' ') = true := by decide

lemma wsRBracket : isWsChar (']') = false := by decide

lemma wsNewline : isWsChar ('\n') = true := by decide

lemma digComma : Char.isDigit (',') = false := by decide

lemma digRBracket : Char.isDigit (']') = false := by decide

lemma pyReprItems_cons_data (y : Nat) (t : List Nat) :
    ∃ D, (pyReprItems (y :: t)).data = (Nat.repr y).data ++ D := by
  cases t with
  | nil => exact ⟨[], by simp [pyReprItems]⟩
  | cons z t3 =>
    refine ⟨(", ").data ++ (pyReprItems (z :: t3)).data, ?_⟩
    simp [pyReprItems, data_append]

lemma digit_data (x : Nat) (hx : x ≤ 1) :
    ∃ d, (Nat.repr x).data = [d] ∧ d.isDigit = true ∧ d.toNat - 48 = x ∧
      isWsChar d = false := by
  have : x = 0 ∨ x = 1 := by omega
  rcases this with rfl | rfl
  · exact ⟨Char.ofNat 48, by decide, by decide, by decide, by decide⟩
  · exact ⟨Char.ofNat 49, by decide, by decide, by decide, by decide⟩

lemma parseItems_last (f : Nat) (d : Char) (x : Nat)
    (hdig : d.isDigit = true) (hval : d.toNat - 48 = x) :
    parseItems (f + 1) (d :: ']' :: '\n' :: []) = some [x] := by
  simp [parseItems, hdig, readNat, skipWs, wsRBracket, wsNewline, digRBracket, hval]

lemma parseItems_step (f : Nat) (d d2 : Char) (x : Nat) (r2 : List Char) (out : List Nat)
    (hdig : d.isDigit = true) (hval : d.toNat - 48 = x) (hd2 : isWsChar d2 = false)
    (hrec : parseItems f (d2 :: r2) = some out) :
    parseItems (f + 1) (d :: ',' :: ' ' :: d2 :: r2) = some (x :: out) := by
  simp [parseItems, hdig, readNat, skipWs, wsComma, wsSpace, hd2, digComma, hval, hrec]

lemma parseItems_correct (xs : List Nat) (fuel : Nat) :
    xs ≠ [] → (∀ y ∈ xs, y ≤ 1) → xs.length + 1 ≤ fuel →
    parseItems fuel ((pyReprItems xs).data ++ ']' :: '\n' :: []) = some xs := by
  induction xs generalizing fuel with
  | nil => intro h; exact absurd rfl h
  | cons x t ih =>
    intro _ hle hf
    obtain ⟨f, rfl⟩ : ∃ f, fuel = f + 1 := ⟨fuel - 1, by omega⟩
    obtain ⟨dx, hdx, hdigx, hvalx, hwx⟩ := digit_data x (hle x (by simp))
    cases t with
    | nil =>
      have hdata : (pyReprItems [x]).data = [dx] := by
        simp [pyReprItems, hdx]
      rw [hdata]
      exact parseItems_last f dx x hdigx hvalx
    | cons y t2 =>
      obtain ⟨dy, hdy, hdigy, hvaly, hwy⟩ := digit_data y (hle y (by simp))
      obtain ⟨D, hD⟩ := pyReprItems_cons_data y t2
      rw [hdy] at hD
      have hne : (y :: t2) ≠ [] := by simp
      have hrec := ih f hne (fun z hz => hle z (by simp [hz])) (by
        simp only [List.length_cons] at hf ⊢
        omega)
      rw [hD] at hrec
      have hdata : (pyReprItems (x :: y :: t2)).data ++ ']' :: '\n' :: []
          = dx :: ',' :: ' ' :: dy :: (D ++ ']' :: '\n' :: []) := by
        simp [pyReprItems, data_append, hdx, hD]
      rw [hdata]
      refine parseItems_step f dx dy x (D ++ ']' :: '\n' :: []) (y :: t2)
        hdigx hvalx hwy ?_
      simpa using hrec

lemma wsLBracket : isWsChar ('[') = false := by decide

lemma b2i_le_one (b : Bool) : b2i b ≤ 1 := by cases b <;> simp [b2i]

lemma pyReprItems_length (xs : List Nat) (h : ∀ y ∈ xs, y ≤ 1) :
    xs.length ≤ (pyReprItems xs).data.length := by
  induction xs with
  | nil => simp
  | cons x t ih =>
    cases t with
    | nil =>
      obtain ⟨d, hd, _, _, _⟩ := digit_data x (h x (by simp))
      simp [pyReprItems, hd]
    | cons y t2 =>
      have hrec := ih (fun z hz => h z (by simp [hz]))
      obtain ⟨d, hd, _, _, _⟩ := digit_data x (h x (by simp))
      simp [pyReprItems, data_append, hd] at hrec ⊢
      omega

lemma json_line_roundtrip (xs : List Nat) (h : ∀ y ∈ xs, y ≤ 1) :
    json_loads_intlist (pyReprList xs ++ "\n") = some xs := by
  have hdata : (pyReprList xs ++ "\n").data
      = '[' :: ((pyReprItems xs).data ++ ']' :: '\n' :: []) := by
    simp [pyReprList, data_append]
  unfold json_loads_intlist
  rw [hdata, show skipWs ('[' :: ((pyReprItems xs).data ++ ']' :: '\n' :: []))
      = '[' :: ((pyReprItems xs).data ++ ']' :: '\n' :: []) from by
    simp [skipWs, wsLBracket]]
  cases xs with
  | nil => simp [pyReprItems, skipWs, wsRBracket, wsNewline]
  | cons x t =>
    obtain ⟨dx, hdx, hdigx, hvalx, hwx⟩ := digit_data x (h x (by simp))
    obtain ⟨D, hD⟩ := pyReprItems_cons_data x t
    rw [hdx] at hD
    have hcs : skipWs ((pyReprItems (x :: t)).data ++ ']' :: '\n' :: [])
        = (pyReprItems (x :: t)).data ++ ']' :: '\n' :: [] := by
      rw [hD]
      simp [skipWs, hwx]
    simp only [hcs]
    have hdne : dx ≠ (']') := by
      intro he
      rw [he] at hdigx
      exact absurd hdigx (by decide)
    rw [if_neg (by
      rw [hD]
      simp [hdne])]
    exact parseItems_correct (x :: t) _ (by simp) h (by
      have hlen := pyReprItems_length (x :: t) h
      simp at hlen ⊢
      omega)

lemma matrixRow_le_one (g : Grid) (i : Nat) : ∀ y ∈ matrixRow g i, y ≤ 1 := by
  intro y hy
  simp [matrixRow] at hy
  obtain ⟨j, _, rfl⟩ := hy
  exact b2i_le_one _

lemma load_new_conf (g : Grid) :
    load_conf (new_conf g) = some ((List.range g.rows).map (matrixRow g)) := by
  unfold new_conf
  have key : ∀ l : List Nat,
      load_conf (l.map fun i => pyReprList (matrixRow g i) ++ "\n")
        = some (l.map (matrixRow g)) := by
    intro l
    induction l with
    | nil => rfl
    | cons a t ih =>
      simp only [List.map_cons, load_conf,
        json_line_roundtrip _ (matrixRow_le_one g a), ih]
  exact key (List.range g.rows)

/-- C8.  Serializing a grid with `new_conf` (one JSON-style 0/1 array line
per row) and reloading the lines with `load_conf` (no custom alphabet)
reproduces the matrix exactly: same number of rows, every row of the original
column count, and the 0/1 entry at each position encodes the original
liveness. -/
theorem C8_serialization_roundtrip (g : Grid) :
    ∃ conf, load_conf (new_conf g) = some conf ∧
      conf = (List.range g.rows).map (matrixRow g) ∧
      conf.length = g.rows ∧
      (∀ row ∈ conf, row.length = g.cols) ∧
      (∀ i j, i < g.rows → j < g.cols →
        (conf.getD i []).getD j 0 = b2i (g.cell i j)) := by
  refine ⟨(List.range g.rows).map (matrixRow g), load_new_conf g, rfl, by simp, ?_, ?_⟩
  · intro row hrow
    simp at hrow
    obtain ⟨i, _, rfl⟩ := hrow
    simp [matrixRow]
  · intro i j hi hj
    have houter : (List.map (matrixRow g) (List.range g.rows)).getD i [] = matrixRow g i := by
      rw [List.getD_eq_getElem?_getD, List.getElem?_map, List.getElem?_range hi]
      rfl
    rw [houter]
    simp only [matrixRow]
    rw [List.getD_eq_getElem?_getD, List.getElem?_map, List.getElem?_range hj]
    rfl

theorem C8_witness :
    ∃ conf, load_conf (new_conf dead2x2) = some conf ∧
      conf = (List.range dead2x2.rows).map (matrixRow dead2x2) ∧
      conf.length = dead2x2.rows ∧
      (∀ row ∈ conf, row.length = dead2x2.cols) ∧
      (∀ i j, i < dead2x2.rows → j < dead2x2.cols →
        (conf.getD i []).getD j 0 = b2i (dead2x2.cell i j)) :=
  C8_serialization_roundtrip dead2x2
